import Mathlib

/-!
# XPLPro protocol core: shallow embedding and verification

This development embeds the protocol core of the XPLPro Arduino library
(`src/XPLPro_Arduino/XPLPro/XPLPro.h`) in Lean 4 and proves the testable
properties stated in the repository's specification.

The repository ships only the class header `XPLPro.h` (constants, wire
command codes, the class declaration with its complete member-state list,
and doc comments giving each method's contract); the member-function bodies
are not part of the repository snapshot.  Definitions below that embed such
a body are therefore modelled from the specification (section 4 of
`spec.md`), constrained by what the header does fix: the numeric constants,
the frame delimiters, the command-code table, the declared fields of the
class, and the documented return contracts.  Each such definition carries a
doc comment starting with `Modelled from the spec:`.

Integers on the wire are decimal text, so they are embedded as `Int`/`Nat`;
floating-point values travel as decimal text with `XPL_FLOATPRECISION`
digits after the point, and are embedded as rationals (`ℚ`) rounded to that
grid, which captures exactly the "agree up to the configured precision"
contract.  Bytes are embedded as `Nat` ASCII codes.
-/
/-! ## Constants fixed by `XPLPro.h` -/
/-- Decimals of precision for floating point datarefs (`XPLPro.h` line 20). -/
def XPL_FLOATPRECISION : Nat := 4

/-- Timeout waiting for a registration response, ms (`XPLPro.h` line 26). -/
def XPL_RESPONSE_TIMEOUT : Nat := 90000

/-- Transmit buffer size in bytes (`XPLPro.h` line 50). -/
def XPLMAX_PACKETSIZE_TRANSMIT : Nat := 200

/-- Receive buffer size in bytes (`XPLPro.h` line 54). -/
def XPLMAX_PACKETSIZE_RECEIVE : Nat := 200

/-- Timeout for reception of one frame, ms (`XPLPro.h` line 77). -/
def XPL_RX_TIMEOUT : Nat := 500

/-- Frame start character, ASCII code of the opening square bracket (`XPLPro.h` line 78). -/
def XPL_PACKETHEADER : Nat := 91

/-- Frame end character, ASCII code of the closing square bracket (`XPLPro.h` line 79). -/
def XPL_PACKETTRAILER : Nat := 93

/-- Invalid handle sentinel (`XPLPro.h` line 80). -/
def XPL_HANDLE_INVALID : Int := -1

/-- ASCII comma, the field delimiter used inside a frame. -/
def XPL_FIELDSEP : Nat := 44

/-- Command code: plugin requests the device name (`N`). -/
def XPLCMD_SENDNAME : Nat := 78

/-- Command code: plugin is ready to register bindings (`Q`). -/
def XPLCMD_SENDREQUEST : Nat := 81

/-- Command code: pause dataflow from plugin (`p`). -/
def XPLCMD_DATAFLOWPAUSE : Nat := 112

/-- Command code: resume dataflow from plugin (`q`). -/
def XPLCMD_DATAFLOWRESUME : Nat := 113

/-- Command code: set maximum number of bytes to send per second (`f`). -/
def XPLCMD_SETDATAFLOWSPEED : Nat := 102

/-- Response code: plugin answers a dataref registration (`D`). -/
def XPLRESPONSE_DATAREF : Nat := 68

/-- Response code: plugin answers a command registration (`C`). -/
def XPLRESPONSE_COMMAND : Nat := 67

/-- Command code: int dataref update (`1`). -/
def XPLCMD_DATAREFUPDATEINT : Nat := 49

/-- Command code: float dataref update (`2`). -/
def XPLCMD_DATAREFUPDATEFLOAT : Nat := 50

/-- Command code: int array dataref update (`3`). -/
def XPLCMD_DATAREFUPDATEINTARRAY : Nat := 51

/-- Command code: float array dataref update (`4`). -/
def XPLCMD_DATAREFUPDATEFLOATARRAY : Nat := 52

/-- Command code: string dataref update (`9`). -/
def XPLCMD_DATAREFUPDATESTRING : Nat := 57

/-- Command code: trigger a command n times (`k`). -/
def XPLCMD_COMMANDTRIGGER : Nat := 107

/-- Command code: begin a command, button pressed (`i`). -/
def XPLCMD_COMMANDSTART : Nat := 105

/-- Command code: end a command, button released (`j`). -/
def XPLCMD_COMMANDEND : Nat := 106

/-- Command code: normal shutdown notice from the simulator (`X`). -/
def XPL_EXITING : Nat := 88

/-! ## Decimal digit machinery

The wire format is decimal text; these helpers convert between numbers and
lists of decimal digits (least significant first). -/
/-- Decimal digits of `n`, least significant first, with explicit fuel so the
definition is structurally recursive and computes by kernel reduction. -/
def natDigitsRevFuel : Nat → Nat → List Nat
  | 0, _ => []
  | _ + 1, 0 => []
  | fuel + 1, n + 1 => ((n + 1) % 10) :: natDigitsRevFuel fuel ((n + 1) / 10)

/-- Decimal digits of `n`, least significant first; empty for `0`. -/
def natDigitsRev (n : Nat) : List Nat := natDigitsRevFuel n n

/-- Numeric value of a digit list, least significant digit first. -/
def digitsValRev : List Nat → Nat
  | [] => 0
  | d :: ds => d + 10 * digitsValRev ds

/-! ## Value codec: numeric text fields

`Modelled from the spec:` the bodies of `XPLPro::_parseInt`,
`XPLPro::_parseFloat`, `XPLPro::_parseString` and `XPLPro::Xdtostrf` are not
under `src/`; the encoders/parsers below follow the spec's section 4.2
(decimal text fields, fixed floating precision, length-prefixed strings)
using the constants fixed by the header. -/
/-- Is byte `b` an ASCII decimal digit? -/
def isDigitB (b : Nat) : Bool := decide (48 ≤ b) && decide (b ≤ 57)

/-- Greedily parse a run of decimal digit bytes, MSB first, with accumulator
`a`; returns the value and the unconsumed remainder. -/
def parseNatFrom : List Nat → Nat → Nat × List Nat
  | [], a => (a, [])
  | b :: bs, a =>
    if isDigitB b then parseNatFrom bs (a * 10 + (b - 48)) else (a, b :: bs)

/-- Does this remainder stop a digit run (empty, or a non-digit first byte)? -/
def stopsParse : List Nat → Bool
  | [] => true
  | b :: _ => !(isDigitB b)

/-- Encode `n` as ASCII decimal digit bytes, most significant first. -/
def encNat (n : Nat) : List Nat :=
  if n = 0 then [48] else (natDigitsRev n).reverse.map (fun d => d + 48)

/-- Parse an entire field as a natural number; fails on empty input, a
non-digit byte, or trailing bytes. -/
def parseNatAll (bs : List Nat) : Option Nat :=
  match bs with
  | [] => none
  | _ :: _ =>
    match parseNatFrom bs 0 with
    | (n, []) => some n
    | _ => none

/-- Encode a (signed) integer field: optional ASCII minus, then digits. -/
def encInt (i : Int) : List Nat :=
  if i < 0 then 45 :: encNat (-i).toNat else encNat i.toNat

/-- Parse an entire field as a signed integer. -/
def parseIntAll (bs : List Nat) : Option Int :=
  match bs with
  | [] => none
  | b :: rest =>
    if b = 45 then (parseNatAll rest).map (fun n => -(n : Int))
    else (parseNatAll (b :: rest)).map (fun n => (n : Int))

/-! ## Value codec: floating-point text fields

Floating values travel as decimal text with `XPL_FLOATPRECISION` digits
after the point (`Xdtostrf` on send, `atof`-style parsing on receive), so a
wire float is exactly an integer multiple of `10 ^ (-XPL_FLOATPRECISION)`.
We embed the mathematical value as a rational. -/
/-- Scale factor between a rational value and its wire representation. -/
def floatScale : Nat := 10 ^ XPL_FLOATPRECISION

/-- Tolerance within which a decoded floating value matches the original:
one unit in the last printed decimal place. -/
def floatTol : ℚ := 1 / (floatScale : ℚ)

/-- Modelled from the spec: rounding performed by `XPLPro::Xdtostrf` (body
not under `src/`): magnitude is rounded half away from zero to
`XPL_FLOATPRECISION` decimals, as `dtostrf` does. Result is the scaled
integer `round (|q| * 10 ^ precision)` with the sign reattached. -/
def roundScaled (q : ℚ) : Int :=
  if q < 0 then -(round ((-q) * (floatScale : ℚ))) else round (q * (floatScale : ℚ))

/-- Exactly `p` decimal digits of `f`, least significant first, zero padded. -/
def fixedDigitsRev : Nat → Nat → List Nat
  | 0, _ => []
  | p + 1, f => (f % 10) :: fixedDigitsRev p (f / 10)

/-- Fractional digits field: exactly `XPL_FLOATPRECISION` ASCII digits. -/
def encFracDigits (f : Nat) : List Nat :=
  (fixedDigitsRev XPL_FLOATPRECISION f).reverse.map (fun d => d + 48)

/-- Modelled from the spec: the text produced by `XPLPro::Xdtostrf` for a
floating value (body not under `src/`): optional minus sign, integer part,
ASCII point, then exactly `XPL_FLOATPRECISION` fraction digits. -/
def encFloat (q : ℚ) : List Nat :=
  (if roundScaled q < 0 then [45] else []) ++
    encNat ((roundScaled q).natAbs / floatScale) ++
    46 :: encFracDigits ((roundScaled q).natAbs % floatScale)

/-- Modelled from the spec: `atof`-style parse of an unsigned floating
field (`XPLPro::_parseFloat` body not under `src/`): integer digits, ASCII
point, fraction digits scaled by their count; rejects malformed fields. -/
def parsePosFloat (bs : List Nat) : Option ℚ :=
  match parseNatFrom bs 0 with
  | (ip, 46 :: frac) =>
    match parseNatFrom frac 0 with
    | (fv, []) =>
      if frac.isEmpty then none
      else some ((ip : ℚ) + (fv : ℚ) / (10 : ℚ) ^ frac.length)
    | _ => none
  | _ => none

/-- Modelled from the spec: parse of a signed floating field. -/
def parseFloatAll (bs : List Nat) : Option ℚ :=
  match bs with
  | [] => none
  | b :: rest =>
    if b = 45 then (parsePosFloat rest).map (fun q => -q)
    else parsePosFloat (b :: rest)

/-! ## Value codec: the typed payload union

`Decoded Value` from the spec's data model: a tagged union over the six
supported shapes.  `encodeValue` produces the wire text field(s) for a
value; `decodeValue` parses them back given the type tag (on the wire the
tag is the frame's command code, e.g. `XPLCMD_DATAREFUPDATEINT`). -/
/-- Type tag of a decoded value, as implied by a frame's command code. -/
inductive XPLType where
  | tInt
  | tFloat
  | tDouble
  | tIntArr
  | tFloatArr
  | tStr
deriving DecidableEq

/-- Tagged union of the supported payload values.  Floating values are the
mathematical values as rationals; array shapes carry their element index;
strings are raw byte sequences. -/
inductive XPLValue where
  | vInt (v : Int)
  | vFloat (q : ℚ)
  | vDouble (q : ℚ)
  | vIntArr (idx : Nat) (v : Int)
  | vFloatArr (idx : Nat) (q : ℚ)
  | vStr (s : List Nat)
deriving DecidableEq

/-- The type tag a value encodes under. -/
def typeOf : XPLValue → XPLType
  | .vInt _ => .tInt
  | .vFloat _ => .tFloat
  | .vDouble _ => .tDouble
  | .vIntArr _ _ => .tIntArr
  | .vFloatArr _ _ => .tFloatArr
  | .vStr _ => .tStr

/-- Modelled from the spec: wire encoding of one value (the field part of
an update/write frame): numbers as decimal text, array elements as
`index , value`, strings length-prefixed within the field. -/
def encodeValue : XPLValue → List Nat
  | .vInt v => encInt v
  | .vFloat q => encFloat q
  | .vDouble q => encFloat q
  | .vIntArr i v => encNat i ++ XPL_FIELDSEP :: encInt v
  | .vFloatArr i q => encNat i ++ XPL_FIELDSEP :: encFloat q
  | .vStr s => encNat s.length ++ XPL_FIELDSEP :: s

/-- Modelled from the spec: decode the field part of a frame whose command
code implies type `t` (`XPLPro::_parseInt`, `_parseFloat`, `_parseString`
bodies are not under `src/`).  Rejects a string field whose declared length
does not match the available bytes, and any numeric text that fails to
parse, returning `none` instead of a partial value. -/
def decodeValue : XPLType → List Nat → Option XPLValue
  | .tInt, bs => (parseIntAll bs).map .vInt
  | .tFloat, bs => (parseFloatAll bs).map .vFloat
  | .tDouble, bs => (parseFloatAll bs).map .vDouble
  | .tIntArr, bs =>
    match parseNatFrom bs 0 with
    | (i, 44 :: vb) => (parseIntAll vb).map (.vIntArr i)
    | _ => none
  | .tFloatArr, bs =>
    match parseNatFrom bs 0 with
    | (i, 44 :: vb) => (parseFloatAll vb).map (.vFloatArr i)
    | _ => none
  | .tStr, bs =>
    match parseNatFrom bs 0 with
    | (n, 44 :: tail) => if tail.length = n then some (.vStr tail) else none
    | _ => none

/-- Decoding the encoding of `v`, under `v`'s own type tag. -/
def decOf (v : XPLValue) : Option XPLValue := decodeValue (typeOf v) (encodeValue v)

/-- The round-trip contract: exact for integers, array indices and strings;
within `floatTol` (one unit in the last printed decimal) for floats. -/
def roundTripOk : XPLValue → Prop
  | .vInt a => decOf (.vInt a) = some (.vInt a)
  | .vFloat q => ∃ r, decOf (.vFloat q) = some (.vFloat r) ∧ |r - q| ≤ floatTol
  | .vDouble q => ∃ r, decOf (.vDouble q) = some (.vDouble r) ∧ |r - q| ≤ floatTol
  | .vIntArr i a => decOf (.vIntArr i a) = some (.vIntArr i a)
  | .vFloatArr i q =>
    ∃ r, decOf (.vFloatArr i q) = some (.vFloatArr i r) ∧ |r - q| ≤ floatTol
  | .vStr s => decOf (.vStr s) = some (.vStr s)

/-! ## Framer / Deframer

`Modelled from the spec:` the body of `XPLPro::_processSerial` is not under
`src/`.  The deframer below follows spec section 4.1, with the buffer bound
fixed by the header's `_receiveBuffer[XPLMAX_PACKETSIZE_RECEIVE]` and
`_receiveBufferBytesReceived` fields: bytes while idle are discarded until
the start delimiter opens a frame; an open frame accumulates bytes into the
bounded buffer; the end delimiter emits the frame; a byte that would
overflow the buffer discards the whole partial frame; and an open frame
older than `XPL_RX_TIMEOUT` is discarded before the next byte is handled. -/
/-- Deframer state: idle scan, or an open frame with its buffered payload
bytes and the time the start delimiter was seen. -/
inductive RxState where
  | rxIdle
  | rxOpen (buf : List Nat) (since : Nat)
deriving DecidableEq

/-- Timeout step applied before each byte: discard an open frame older than
`XPL_RX_TIMEOUT` milliseconds. -/
def feedTimeout (s : RxState) (now : Nat) : RxState :=
  match s with
  | .rxIdle => .rxIdle
  | .rxOpen buf since =>
    if XPL_RX_TIMEOUT < now - since then .rxIdle else .rxOpen buf since

/-- Handle one byte after the timeout step. -/
def feedByte (s : RxState) (now : Nat) (b : Nat) : RxState × Option (List Nat) :=
  match s with
  | .rxIdle =>
    if b = XPL_PACKETHEADER then (.rxOpen [] now, none) else (.rxIdle, none)
  | .rxOpen buf since =>
    if b = XPL_PACKETTRAILER then (.rxIdle, some buf)
    else if XPLMAX_PACKETSIZE_RECEIVE ≤ buf.length then (.rxIdle, none)
    else (.rxOpen (buf ++ [b]) since, none)

/-- Feeding consumes one transport byte at time `now`, returning the new
state and the completed frame, if this byte closed one. -/
def feed (s : RxState) (now : Nat) (b : Nat) : RxState × Option (List Nat) :=
  feedByte (feedTimeout s now) now b

/-- Pending receive-byte count, as reported by `XPLPro::getBufferStatus`. -/
def getBufferStatus : RxState → Nat
  | .rxIdle => 0
  | .rxOpen buf _ => buf.length

/-- Feed a byte list at a fixed time; collects every emitted frame in order. -/
def feedAll : RxState → Nat → List Nat → RxState × List (List Nat)
  | s, _, [] => (s, [])
  | s, now, b :: bs =>
    ((feedAll (feed s now b).1 now bs).1,
      (feed s now b).2.toList ++ (feedAll (feed s now b).1 now bs).2)

/-- Concrete oversized payload used to witness the oversize-frame property:
201 bytes, one more than the receive buffer holds. -/
def oversizedPayload : List Nat := List.replicate 201 65

/-- Concrete follow-up payload used to witness parser recovery. -/
def smallPayload : List Nat := [78, 44, 65]

/-! ## Flow Controller

`Modelled from the spec:` the bodies of `XPLPro::dataFlowPause`,
`dataFlowResume`, `setDataFlowSpeed` and `XPLPro::_transmitPacket` are not
under `src/`.  The controller below follows spec section 4.5: a token
bucket refilled continuously at the configured bytes-per-second rate (unset
budget = unlimited), a hard pause gate, and frame-granular gating — the
header's own comment on `setDataFlowSpeed` fixes that "a full packet will
always be sent but the throttling occurs between packets". -/
/-- Flow-control state from the spec's data model. -/
structure FlowState where
  paused : Bool
  budget : Option Nat
  tokens : Int
  lastRefill : Nat
deriving DecidableEq

/-- Continuous token refill based on elapsed time since the last refill. -/
def refillFlow (fs : FlowState) (now : Nat) : FlowState :=
  match fs.budget with
  | none => { fs with lastRefill := now }
  | some rate =>
    { fs with tokens := fs.tokens + (rate * (now - fs.lastRefill) : Nat),
              lastRefill := now }

/-- May a frame start transmission now?  Not while paused; under a budget,
only with a positive token balance (a deficit delays the next frame). -/
def canSendNow (fs : FlowState) : Bool :=
  !fs.paused && (fs.budget.isNone || decide (0 < fs.tokens))

/-- A serialized frame: start delimiter, payload, end delimiter. -/
def frameBytes (f : List Nat) : List Nat :=
  XPL_PACKETHEADER :: (f ++ [XPL_PACKETTRAILER])

/-- Attempt to transmit one frame at time `now`: either the whole frame is
written (tokens may go negative, delaying the next frame) or nothing is. -/
def sendFrame (fs : FlowState) (now : Nat) (f : List Nat) : FlowState × List Nat :=
  if canSendNow (refillFlow fs now) then
    ({ refillFlow fs now with
        tokens := (refillFlow fs now).tokens - (frameBytes f).length },
      frameBytes f)
  else (refillFlow fs now, [])

/-- Transmit a queue of frames in order at time `now`; stops at the first
frame the gate holds back (strict ordering).  Returns the byte stream that
reached the transport. -/
def runFlow : FlowState → Nat → List (List Nat) → List Nat
  | _, _, [] => []
  | fs, now, f :: rest =>
    if (sendFrame fs now f).2.isEmpty then []
    else (sendFrame fs now f).2 ++ runFlow (sendFrame fs now f).1 now rest

/-! ## Protocol Engine state, Command Dispatcher, Handle Registry

`Modelled from the spec:` the bodies of `XPLPro::_processPacket`,
`XPLPro::xloop`, `XPLPro::registerDataRef` and `XPLPro::registerCommand`
are not under `src/`.  The engine state and handlers below follow spec
sections 3, 4.3 and 4.4, with the command-code table and the constants
fixed by the header. -/
/-- Connection state of the registration handshake (spec section 3). -/
inductive ConnState where
  | csIdle
  | csNameRequested
  | csAwaitingReady
  | csRegInProgress
  | csActive
  | csDisconnected
deriving DecidableEq

/-- Engine state owned by the protocol engine: connection state, the
pending registration request timestamp, resolved name→handle bindings,
flow-control state, and the number of times the application's stop
(disconnect) callback has fired. -/
structure Engine where
  conn : ConnState
  pendingSince : Option Nat
  handles : List (List Nat × Int)
  flow : FlowState
  stopCalls : Nat
deriving DecidableEq

/-- Application callback invocations observable from a dispatch step. -/
inductive Event where
  | evReady
  | evStopped
  | evInbound (handle : Nat) (value : XPLValue)
deriving DecidableEq

/-- Type tag implied by a value-update command code, if any. -/
def updType (c : Nat) : Option XPLType :=
  if c = XPLCMD_DATAREFUPDATEINT then some .tInt
  else if c = XPLCMD_DATAREFUPDATEFLOAT then some .tFloat
  else if c = XPLCMD_DATAREFUPDATEINTARRAY then some .tIntArr
  else if c = XPLCMD_DATAREFUPDATEFLOATARRAY then some .tFloatArr
  else if c = XPLCMD_DATAREFUPDATESTRING then some .tStr
  else none

/-- Modelled from the spec: handle a value-update frame body
(`handle , field...`): on a clean decode the inbound callback fires with
the decoded value; a malformed field drops the frame with no callback
(spec section 7, error class e). -/
def handleUpdate (e : Engine) (t : XPLType) (rest : List Nat) : Engine × List Event :=
  match parseNatFrom rest 0 with
  | (h, 44 :: fb) =>
    match decodeValue t fb with
    | some v => (e, [.evInbound h v])
    | none => (e, [])
  | _ => (e, [])

/-- Modelled from the spec: dispatch one well-framed packet
(`XPLPro::_processPacket` body not under `src/`): the first payload byte is
the command code; known codes run their handler; an unknown code is a
silent no-op (spec section 4.3). -/
def processPacket (e : Engine) (frame : List Nat) : Engine × List Event :=
  match frame with
  | [] => (e, [])
  | c :: rest =>
    if c = XPLCMD_SENDNAME then ({ e with conn := .csNameRequested }, [])
    else if c = XPLCMD_SENDREQUEST then
      ({ e with conn := .csRegInProgress }, [.evReady])
    else if c = XPLRESPONSE_DATAREF ∨ c = XPLRESPONSE_COMMAND then
      ({ e with pendingSince := none }, [])
    else
      match updType c with
      | some t => handleUpdate e t rest
      | none =>
        if c = XPL_EXITING then
          ({ e with conn := .csDisconnected, pendingSince := none, handles := [], stopCalls := e.stopCalls + 1 }, [.evStopped])
        else if c = XPLCMD_DATAFLOWPAUSE then
          ({ e with flow := { e.flow with paused := true } }, [])
        else if c = XPLCMD_DATAFLOWRESUME then
          ({ e with flow := { e.flow with paused := false } }, [])
        else if c = XPLCMD_SETDATAFLOWSPEED then
          match parseNatAll rest with
          | some r => ({ e with flow := { e.flow with budget := some r } }, [])
          | none => (e, [])
        else (e, [])

/-- The command codes that have a handler in the dispatch table. -/
def knownCmdCodes : List Nat :=
  [XPLCMD_SENDNAME, XPLCMD_SENDREQUEST, XPLRESPONSE_DATAREF, XPLRESPONSE_COMMAND,
    XPLCMD_DATAREFUPDATEINT, XPLCMD_DATAREFUPDATEFLOAT,
    XPLCMD_DATAREFUPDATEINTARRAY, XPLCMD_DATAREFUPDATEFLOATARRAY,
    XPLCMD_DATAREFUPDATESTRING, XPL_EXITING, XPLCMD_DATAFLOWPAUSE,
    XPLCMD_DATAFLOWRESUME, XPLCMD_SETDATAFLOWSPEED]

/-- Modelled from the spec: the registration-timeout check run from the
engine's step function (`XPLPro::xloop` body not under `src/`): when a
registration request has waited longer than `XPL_RESPONSE_TIMEOUT`, the
connection is declared failed — state becomes `Disconnected`, volatile
handle bindings are cleared, and the stop callback fires (spec section
4.4 step 5 and section 7, error class c). -/
def checkResponseTimeout (e : Engine) (now : Nat) : Engine :=
  match e.pendingSince with
  | some t =>
    if XPL_RESPONSE_TIMEOUT < now - t then
      { e with conn := .csDisconnected, pendingSince := none, handles := [], stopCalls := e.stopCalls + 1 }
    else e
  | none => e

/-- Modelled from the spec: resolution of one registration request inside
`XPLPro::registerDataRef` / `registerCommand` (bodies not under `src/`):
the plugin answers with the handle, or a negative value when the name was
not found; a not-found answer is surfaced to the caller as
`XPL_HANDLE_INVALID` and is not a fatal error — connection state, existing
bindings and the stop callback are untouched (spec sections 4.4 and 7,
error class b). -/
def processRegResponse (e : Engine) (name : List Nat) (resp : Int) :
    Engine × Int :=
  if resp < 0 then ({ e with pendingSince := none }, XPL_HANDLE_INVALID)
  else ({ e with pendingSince := none, handles := (name, resp) :: e.handles }, resp)

/-! ## Outbound command calls

The one-argument `commandTrigger` body is in the header itself
(`XPLPro.h` line 166): it returns `commandTrigger(commandHandle, 1)`.  The
other bodies are not under `src/`; they are modelled from the spec and the
header's documented contracts (return `0` for OK, `-1` when the command
was not registered — an invalid handle), noting that the class declares no
per-handle held state (`XPLPro.h` lines 308-323). -/
/-- Payload of a one-handle command frame: code, separator, handle text. -/
def cmdFrame (code : Nat) (h : Int) : List Nat :=
  code :: XPL_FIELDSEP :: encInt h

/-- Modelled from the spec: `XPLPro::commandStart` — reject an invalid
handle with `-1` and no frame, otherwise send the start frame and return
`0` (header contract, `XPLPro.h` lines 174-177). -/
def commandStart (h : Int) : Int × Option (List Nat) :=
  if h < 0 then (-1, none) else (0, some (cmdFrame XPLCMD_COMMANDSTART h))

/-- Modelled from the spec: `XPLPro::commandEnd` — reject an invalid
handle with `-1` and no frame, otherwise send the end frame and return `0`
(header contract, `XPLPro.h` lines 179-182). -/
def commandEnd (h : Int) : Int × Option (List Nat) :=
  if h < 0 then (-1, none) else (0, some (cmdFrame XPLCMD_COMMANDEND h))

/-- Modelled from the spec: the two-argument `XPLPro::commandTrigger` —
reject an invalid handle with `-1` and no frame, otherwise send the
trigger frame carrying the handle and the trigger count and return `0`. -/
def commandTrigger2 (h count : Int) : Int × Option (List Nat) :=
  if h < 0 then (-1, none)
  else (0, some (cmdFrame XPLCMD_COMMANDTRIGGER h ++ XPL_FIELDSEP :: encInt count))

/-- The one-argument `XPLPro::commandTrigger`, embedded from its body in
the header (`XPLPro.h` line 166): delegate to the two-argument overload
with a trigger count of one. -/
def commandTrigger1 (h : Int) : Int × Option (List Nat) := commandTrigger2 h 1

/-- A sample flow state for concrete witnesses. -/
def sampleFlow : FlowState :=
  { paused := false, budget := none, tokens := 0, lastRefill := 0 }

/-- A paused flow state for concrete witnesses. -/
def pausedFlow : FlowState :=
  { paused := true, budget := none, tokens := 0, lastRefill := 0 }

/-- A sample engine state for concrete witnesses. -/
def sampleEngine : Engine :=
  { conn := .csActive, pendingSince := none, handles := [],
    flow := sampleFlow, stopCalls := 0 }

/-- A sample engine with a registration request pending since time 0. -/
def pendingEngine : Engine :=
  { conn := .csRegInProgress, pendingSince := some 0, handles := [],
    flow := sampleFlow, stopCalls := 0 }

/-! ## Lemmas and claim theorems

Proofs about the definitions above: codec and deframer lemmas first, then
the theorems settling the specification claims, each with a concrete
instantiation where the statement carries hypotheses. -/

theorem digitsValRev_natDigitsRevFuel (fuel : Nat) :
    ∀ n, n ≤ fuel → digitsValRev (natDigitsRevFuel fuel n) = n := by
  induction fuel with
  | zero =>
    intro n hn
    have : n = 0 := Nat.le_zero.mp hn
    subst this
    rfl
  | succ f ih =>
    intro n hn
    cases n with
    | zero => rfl
    | succ m =>
      have hdiv : (m + 1) / 10 ≤ f := by
        have := Nat.div_lt_self (Nat.succ_pos m) (by decide : 1 < 10)
        omega
      simp only [natDigitsRevFuel, digitsValRev, ih _ hdiv]
      omega

theorem digitsValRev_natDigitsRev (n : Nat) :
    digitsValRev (natDigitsRev n) = n :=
  digitsValRev_natDigitsRevFuel n n le_rfl

theorem natDigitsRevFuel_lt10 (fuel : Nat) :
    ∀ n, ∀ d ∈ natDigitsRevFuel fuel n, d < 10 := by
  induction fuel with
  | zero => intro n d hd; simp [natDigitsRevFuel] at hd
  | succ f ih =>
    intro n d hd
    cases n with
    | zero => simp [natDigitsRevFuel] at hd
    | succ m =>
      simp only [natDigitsRevFuel, List.mem_cons] at hd
      rcases hd with h | h
      · omega
      · exact ih _ _ h

theorem natDigitsRev_lt10 (n : Nat) : ∀ d ∈ natDigitsRev n, d < 10 :=
  natDigitsRevFuel_lt10 n n

theorem natDigitsRev_ne_nil {n : Nat} (h : n ≠ 0) : natDigitsRev n ≠ [] := by
  cases n with
  | zero => exact absurd rfl h
  | succ m => simp [natDigitsRev, natDigitsRevFuel]

theorem parseNatFrom_stop (rest : List Nat) (hr : stopsParse rest = true)
    (a : Nat) : parseNatFrom rest a = (a, rest) := by
  cases rest with
  | nil => rfl
  | cons b bs =>
    simp only [stopsParse, Bool.not_eq_true'] at hr
    simp [parseNatFrom, hr]

theorem parseNatFrom_run (l : List Nat) (hl : ∀ b ∈ l, isDigitB b = true)
    (rest : List Nat) (hr : stopsParse rest = true) :
    ∀ a, parseNatFrom (l ++ rest) a =
      (List.foldl (fun x b => x * 10 + (b - 48)) a l, rest) := by
  induction l with
  | nil => intro a; simpa using parseNatFrom_stop rest hr a
  | cons b l ih =>
    intro a
    have hb := hl b (List.mem_cons_self b l)
    simp only [List.cons_append, parseNatFrom, hb, if_true, List.foldl_cons]
    exact ih (fun x hx => hl x (List.mem_cons_of_mem _ hx)) _

theorem foldl_rev10 (l : List Nat) :
    ∀ a, List.foldl (fun x d => x * 10 + d) a l.reverse =
      a * 10 ^ l.length + digitsValRev l := by
  induction l with
  | nil => intro a; simp [digitsValRev]
  | cons d l ih =>
    intro a
    simp only [List.reverse_cons, List.foldl_append, ih, List.foldl_cons,
      List.foldl_nil, digitsValRev, List.length_cons]
    ring

theorem encNat_digits (n : Nat) : ∀ b ∈ encNat n, isDigitB b = true := by
  intro b hb
  unfold encNat at hb
  split at hb
  · simp only [List.mem_singleton] at hb
    subst hb
    rfl
  · simp only [List.mem_map, List.mem_reverse] at hb
    obtain ⟨d, hd, rfl⟩ := hb
    have := natDigitsRev_lt10 n d hd
    simp only [isDigitB, Bool.and_eq_true, decide_eq_true_eq]
    omega

theorem encNat_ne_nil (n : Nat) : encNat n ≠ [] := by
  unfold encNat
  split
  · simp
  · simp [natDigitsRev_ne_nil ‹n ≠ 0›]

theorem parseNatFrom_encNat (n : Nat) (rest : List Nat)
    (hr : stopsParse rest = true) :
    parseNatFrom (encNat n ++ rest) 0 = (n, rest) := by
  unfold encNat
  split
  · subst ‹n = 0›
    have h48 : isDigitB 48 = true := rfl
    simp [parseNatFrom, h48, parseNatFrom_stop rest hr]
  · have hdig : ∀ b ∈ (natDigitsRev n).reverse.map (fun d => d + 48),
        isDigitB b = true := by
      intro b hb
      simp only [List.mem_map, List.mem_reverse] at hb
      obtain ⟨d, hd, rfl⟩ := hb
      have := natDigitsRev_lt10 n d hd
      simp only [isDigitB, Bool.and_eq_true, decide_eq_true_eq]
      omega
    rw [parseNatFrom_run _ hdig rest hr 0]
    rw [List.foldl_map, show (fun (x : Nat) d => x * 10 + (d + 48 - 48)) =
      (fun (x : Nat) d => x * 10 + d) from by funext x d; omega]
    rw [foldl_rev10, digitsValRev_natDigitsRev]
    simp

theorem parseNatAll_encNat (n : Nat) : parseNatAll (encNat n) = some n := by
  have h1 : parseNatFrom (encNat n) 0 = (n, []) := by
    have := parseNatFrom_encNat n [] rfl
    simpa using this
  obtain ⟨b, t, hbt⟩ := List.exists_cons_of_ne_nil (encNat_ne_nil n)
  rw [hbt] at h1 ⊢
  simp [parseNatAll, h1]

theorem parseIntAll_encInt (i : Int) : parseIntAll (encInt i) = some i := by
  unfold encInt
  split
  · rename_i hneg
    have h0 : ((-i).toNat : Int) = -i := Int.toNat_of_nonneg (by omega)
    simp [parseIntAll, parseNatAll_encNat, h0]
  · rename_i hpos
    obtain ⟨b, t, hbt⟩ := List.exists_cons_of_ne_nil (encNat_ne_nil i.toNat)
    have hb : isDigitB b = true := by
      have := encNat_digits i.toNat b (by rw [hbt]; exact List.mem_cons_self b t)
      exact this
    have hb45 : b ≠ 45 := by
      intro h
      subst h
      simp [isDigitB] at hb
    have h0 : (i.toNat : Int) = i := Int.toNat_of_nonneg (by omega)
    rw [hbt]
    simp [parseIntAll, hb45, ← hbt, parseNatAll_encNat, h0]

theorem fixedDigitsRev_length (p : Nat) : ∀ f, (fixedDigitsRev p f).length = p := by
  induction p with
  | zero => intro f; rfl
  | succ p ih => intro f; simp [fixedDigitsRev, ih]

theorem fixedDigitsRev_lt10 (p : Nat) : ∀ f, ∀ d ∈ fixedDigitsRev p f, d < 10 := by
  induction p with
  | zero => intro f d hd; simp [fixedDigitsRev] at hd
  | succ p ih =>
    intro f d hd
    simp only [fixedDigitsRev, List.mem_cons] at hd
    rcases hd with h | h
    · omega
    · exact ih _ _ h

theorem digitsValRev_fixedDigitsRev (p : Nat) :
    ∀ f, f < 10 ^ p → digitsValRev (fixedDigitsRev p f) = f := by
  induction p with
  | zero =>
    intro f hf
    simp only [pow_zero, Nat.lt_one_iff] at hf
    subst hf
    rfl
  | succ p ih =>
    intro f hf
    have hdiv : f / 10 < 10 ^ p := by
      rw [pow_succ] at hf
      omega
    simp only [fixedDigitsRev, digitsValRev, ih _ hdiv]
    omega

theorem parsePosFloat_scaled (m : Nat) :
    parsePosFloat (encNat (m / floatScale) ++ 46 :: encFracDigits (m % floatScale)) =
      some ((m : ℚ) / (floatScale : ℚ)) := by
  have hstop : stopsParse (46 :: encFracDigits (m % floatScale)) = true := rfl
  have h1 := parseNatFrom_encNat (m / floatScale) _ hstop
  have hdig : ∀ b ∈ encFracDigits (m % floatScale), isDigitB b = true := by
    intro b hb
    simp only [encFracDigits, List.mem_map, List.mem_reverse] at hb
    obtain ⟨d, hd, rfl⟩ := hb
    have := fixedDigitsRev_lt10 XPL_FLOATPRECISION _ d hd
    simp only [isDigitB, Bool.and_eq_true, decide_eq_true_eq]
    omega
  have hmod : m % floatScale < 10 ^ XPL_FLOATPRECISION := by
    have : 0 < floatScale := by decide
    have := Nat.mod_lt m this
    simpa [floatScale] using this
  have h2 : parseNatFrom (encFracDigits (m % floatScale)) 0 = (m % floatScale, []) := by
    have := parseNatFrom_run (encFracDigits (m % floatScale)) hdig [] rfl 0
    rw [List.append_nil] at this
    rw [this]
    simp only [encFracDigits, List.foldl_map]
    rw [show (fun (x : Nat) d => x * 10 + (d + 48 - 48)) =
      (fun (x : Nat) d => x * 10 + d) from by funext x d; omega]
    rw [foldl_rev10, digitsValRev_fixedDigitsRev _ _ hmod]
    simp
  have hlen : (encFracDigits (m % floatScale)).length = XPL_FLOATPRECISION := by
    simp [encFracDigits, fixedDigitsRev_length]
  have hne : (encFracDigits (m % floatScale)).isEmpty = false := by
    rw [List.isEmpty_eq_false_iff_exists_mem]
    have : 0 < (encFracDigits (m % floatScale)).length := by
      rw [hlen]; decide
    exact List.exists_mem_of_length_pos this
  unfold parsePosFloat
  rw [h1]
  simp only [h2, hne, if_false, Bool.false_eq_true]
  rw [hlen]
  have hsc : ((floatScale : Nat) : ℚ) = (10 : ℚ) ^ XPL_FLOATPRECISION := by
    norm_num [floatScale]
  have hm := Nat.div_add_mod m floatScale
  have hmq : ((floatScale : Nat) : ℚ) * ((m / floatScale : Nat) : ℚ) +
      ((m % floatScale : Nat) : ℚ) = (m : ℚ) := by
    exact_mod_cast hm
  have hEpos : (0 : ℚ) < ((floatScale : Nat) : ℚ) := by
    rw [hsc]; positivity
  rw [← hsc]
  field_simp
  linear_combination hmq

theorem parseFloatAll_cons45 (rest : List Nat) :
    parseFloatAll (45 :: rest) = (parsePosFloat rest).map (fun q => -q) := rfl

theorem parseFloatAll_cons (b : Nat) (rest : List Nat) (hb : b ≠ 45) :
    parseFloatAll (b :: rest) = parsePosFloat (b :: rest) := by
  unfold parseFloatAll
  simp [hb]

theorem parseFloatAll_encFloat (q : ℚ) :
    parseFloatAll (encFloat q) = some ((roundScaled q : ℚ) / (floatScale : ℚ)) := by
  unfold encFloat
  by_cases hn : roundScaled q < 0
  · rw [if_pos hn]
    have habs : (((roundScaled q).natAbs : Nat) : ℚ) = -((roundScaled q : Int) : ℚ) := by
      push_cast [Int.cast_natAbs]
      rw [abs_of_neg]
      exact_mod_cast hn
    rw [List.singleton_append, List.cons_append, parseFloatAll_cons45,
      parsePosFloat_scaled]
    simp only [Option.map_some']
    rw [habs, neg_div, neg_neg]
  · rw [if_neg hn]
    have habs : (((roundScaled q).natAbs : Nat) : ℚ) = ((roundScaled q : Int) : ℚ) := by
      push_cast [Int.cast_natAbs]
      rw [abs_of_nonneg]
      exact_mod_cast not_lt.mp hn
    obtain ⟨b, t, hbt⟩ :=
      List.exists_cons_of_ne_nil (encNat_ne_nil ((roundScaled q).natAbs / floatScale))
    have hb : isDigitB b = true :=
      encNat_digits _ b (by rw [hbt]; exact List.mem_cons_self b t)
    have hb45 : b ≠ 45 := by
      intro h
      subst h
      simp [isDigitB] at hb
    rw [List.nil_append, hbt, List.cons_append, parseFloatAll_cons b _ hb45,
      ← List.cons_append, ← hbt, parsePosFloat_scaled, habs]

theorem roundScaled_close (q : ℚ) :
    |(roundScaled q : ℚ) - q * (floatScale : ℚ)| ≤ 1 / 2 := by
  unfold roundScaled
  split
  · have heq : ((-(round ((-q) * (floatScale : ℚ))) : Int) : ℚ) - q * (floatScale : ℚ) =
        -(((round ((-q) * (floatScale : ℚ)) : Int) : ℚ) - (-q) * (floatScale : ℚ)) := by
      push_cast
      ring
    rw [heq, abs_neg, abs_sub_comm]
    exact abs_sub_round _
  · rw [abs_sub_comm]
    exact abs_sub_round _

theorem roundScaled_div_close (q : ℚ) :
    |(roundScaled q : ℚ) / (floatScale : ℚ) - q| ≤ floatTol := by
  have hEpos : (0 : ℚ) < ((floatScale : Nat) : ℚ) := by
    norm_num [floatScale]
  have h1 := roundScaled_close q
  have heq : (roundScaled q : ℚ) / (floatScale : ℚ) - q =
      ((roundScaled q : ℚ) - q * (floatScale : ℚ)) / (floatScale : ℚ) := by
    field_simp
    ring
  rw [heq, abs_div, abs_of_pos hEpos]
  calc |(roundScaled q : ℚ) - q * (floatScale : ℚ)| / (floatScale : ℚ)
      ≤ (1 / 2) / (floatScale : ℚ) := by gcongr
    _ ≤ 1 / (floatScale : ℚ) := by gcongr; norm_num
    _ = floatTol := rfl

theorem stopsParse_fieldsep (tail : List Nat) :
    stopsParse (XPL_FIELDSEP :: tail) = true := rfl

theorem stopsParse_44 (tail : List Nat) : stopsParse (44 :: tail) = true := rfl

theorem decodeValue_intArr (i : Nat) (v : Int) :
    decodeValue .tIntArr (encNat i ++ 44 :: encInt v) = some (.vIntArr i v) := by
  simp only [decodeValue]
  rw [parseNatFrom_encNat i _ (stopsParse_44 _)]
  simp [parseIntAll_encInt]

theorem decodeValue_floatArr (i : Nat) (q : ℚ) :
    decodeValue .tFloatArr (encNat i ++ 44 :: encFloat q) =
      some (.vFloatArr i ((roundScaled q : ℚ) / (floatScale : ℚ))) := by
  simp only [decodeValue]
  rw [parseNatFrom_encNat i _ (stopsParse_44 _)]
  simp [parseFloatAll_encFloat]

theorem decodeValue_str (s : List Nat) :
    decodeValue .tStr (encNat s.length ++ 44 :: s) = some (.vStr s) := by
  simp only [decodeValue]
  rw [parseNatFrom_encNat s.length _ (stopsParse_44 _)]
  simp

/-- C1: for every value of a supported type (32-bit integer, float, double,
int-array element, float-array element, string), decoding the encoding
yields the value back: exactly for integers, indices and strings, and
within the configured floating precision (`XPL_FLOATPRECISION` = 4 decimal
digits, tolerance `floatTol`) for floating values. -/
theorem codec_roundTrip (v : XPLValue) : roundTripOk v := by
  cases v with
  | vInt a =>
    simp [roundTripOk, decOf, typeOf, encodeValue, decodeValue, parseIntAll_encInt]
  | vFloat q =>
    refine ⟨(roundScaled q : ℚ) / (floatScale : ℚ), ?_, roundScaled_div_close q⟩
    simp [decOf, typeOf, encodeValue, decodeValue, parseFloatAll_encFloat]
  | vDouble q =>
    refine ⟨(roundScaled q : ℚ) / (floatScale : ℚ), ?_, roundScaled_div_close q⟩
    simp [decOf, typeOf, encodeValue, decodeValue, parseFloatAll_encFloat]
  | vIntArr i a =>
    show decOf (.vIntArr i a) = some (.vIntArr i a)
    unfold decOf typeOf encodeValue
    rw [show XPL_FIELDSEP = 44 from rfl]
    exact decodeValue_intArr i a
  | vFloatArr i q =>
    refine ⟨(roundScaled q : ℚ) / (floatScale : ℚ), ?_, roundScaled_div_close q⟩
    unfold decOf typeOf encodeValue
    rw [show XPL_FIELDSEP = 44 from rfl]
    exact decodeValue_floatArr i q
  | vStr s =>
    show decOf (.vStr s) = some (.vStr s)
    unfold decOf typeOf encodeValue
    rw [show XPL_FIELDSEP = 44 from rfl]
    exact decodeValue_str s

theorem feed_idle_header (now : Nat) :
    feed .rxIdle now XPL_PACKETHEADER = (.rxOpen [] now, none) := by
  simp [feed, feedTimeout, feedByte]

theorem feed_idle_other (now b : Nat) (hb : b ≠ XPL_PACKETHEADER) :
    feed .rxIdle now b = (.rxIdle, none) := by
  simp [feed, feedTimeout, feedByte, hb]

theorem feedTimeout_same (buf : List Nat) (now : Nat) :
    feedTimeout (.rxOpen buf now) now = .rxOpen buf now := by
  simp [feedTimeout]

theorem feed_open_trailer (buf : List Nat) (now : Nat) :
    feed (.rxOpen buf now) now XPL_PACKETTRAILER = (.rxIdle, some buf) := by
  rw [feed, feedTimeout_same]
  simp [feedByte]

theorem feed_open_data (buf : List Nat) (now b : Nat)
    (hb : b ≠ XPL_PACKETTRAILER) (hcap : buf.length < XPLMAX_PACKETSIZE_RECEIVE) :
    feed (.rxOpen buf now) now b = (.rxOpen (buf ++ [b]) now, none) := by
  rw [feed, feedTimeout_same]
  simp [feedByte, hb, Nat.not_le.mpr hcap]

theorem feed_open_overflow (buf : List Nat) (now b : Nat)
    (hb : b ≠ XPL_PACKETTRAILER) (hcap : XPLMAX_PACKETSIZE_RECEIVE ≤ buf.length) :
    feed (.rxOpen buf now) now b = (.rxIdle, none) := by
  rw [feed, feedTimeout_same]
  simp [feedByte, hb, hcap]

theorem feedAll_append (s : RxState) (now : Nat) (xs ys : List Nat) :
    feedAll s now (xs ++ ys) =
      ((feedAll (feedAll s now xs).1 now ys).1,
        (feedAll s now xs).2 ++ (feedAll (feedAll s now xs).1 now ys).2) := by
  induction xs generalizing s with
  | nil => simp [feedAll]
  | cons b bs ih => simp [feedAll, ih, List.append_assoc]

theorem feedAll_idle (now : Nat) (xs : List Nat)
    (hx : ∀ b ∈ xs, b ≠ XPL_PACKETHEADER) :
    feedAll .rxIdle now xs = (.rxIdle, []) := by
  induction xs with
  | nil => rfl
  | cons b bs ih =>
    rw [feedAll, feed_idle_other now b (hx b (List.mem_cons_self b bs))]
    simp [ih (fun x hx2 => hx x (List.mem_cons_of_mem _ hx2))]

theorem feedAll_open_fill (now : Nat) (xs : List Nat) :
    ∀ buf, (∀ b ∈ xs, b ≠ XPL_PACKETTRAILER) →
      buf.length + xs.length ≤ XPLMAX_PACKETSIZE_RECEIVE →
      feedAll (.rxOpen buf now) now xs = (.rxOpen (buf ++ xs) now, []) := by
  induction xs with
  | nil => intro buf _ _; simp [feedAll]
  | cons b bs ih =>
    intro buf hb hlen
    have hcap : buf.length < XPLMAX_PACKETSIZE_RECEIVE := by
      simp only [List.length_cons] at hlen
      omega
    rw [feedAll, feed_open_data buf now b (hb b (List.mem_cons_self b bs)) hcap]
    have hrec := ih (buf ++ [b]) (fun x hx2 => hb x (List.mem_cons_of_mem _ hx2))
      (by simp only [List.length_append, List.length_singleton, List.length_nil,
            List.length_cons] at hlen ⊢; omega)
    simp [hrec, List.append_assoc]

theorem feedAll_open_overflow (now : Nat) (xs : List Nat) :
    ∀ buf, (∀ b ∈ xs, b ≠ XPL_PACKETHEADER ∧ b ≠ XPL_PACKETTRAILER) →
      buf.length ≤ XPLMAX_PACKETSIZE_RECEIVE →
      XPLMAX_PACKETSIZE_RECEIVE < buf.length + xs.length →
      feedAll (.rxOpen buf now) now xs = (.rxIdle, []) := by
  induction xs with
  | nil =>
    intro buf _ hle hgt
    simp only [List.length_nil] at hgt
    omega
  | cons b bs ih =>
    intro buf hb hle hgt
    by_cases hcap : buf.length < XPLMAX_PACKETSIZE_RECEIVE
    · rw [feedAll,
        feed_open_data buf now b (hb b (List.mem_cons_self b bs)).2 hcap]
      have hrec := ih (buf ++ [b])
        (fun x hx2 => hb x (List.mem_cons_of_mem _ hx2))
        (by simp only [List.length_append, List.length_singleton, List.length_nil,
              List.length_cons]; omega)
        (by simp only [List.length_append, List.length_singleton, List.length_nil,
              List.length_cons] at hgt ⊢; omega)
      simp [hrec]
    · have hcap2 : XPLMAX_PACKETSIZE_RECEIVE ≤ buf.length := Nat.not_lt.mp hcap
      rw [feedAll,
        feed_open_overflow buf now b (hb b (List.mem_cons_self b bs)).2 hcap2]
      have hrec := feedAll_idle now bs
        (fun x hx2 => (hb x (List.mem_cons_of_mem _ hx2)).1)
      simp [hrec]

theorem sendFrame_all_or_nothing (fs : FlowState) (now : Nat) (f : List Nat) :
    (sendFrame fs now f).2 = frameBytes f ∨ (sendFrame fs now f).2 = [] := by
  unfold sendFrame
  split
  · exact Or.inl rfl
  · exact Or.inr rfl

theorem refillFlow_paused (fs : FlowState) (now : Nat) :
    (refillFlow fs now).paused = fs.paused := by
  unfold refillFlow
  split <;> rfl

theorem frameBytes_ne_nil (f : List Nat) : frameBytes f ≠ [] := by
  simp [frameBytes]

theorem runFlow_whole_frames (now : Nat) (frames : List (List Nat)) :
    ∀ fs, ∃ k, runFlow fs now frames = ((frames.take k).map frameBytes).flatten := by
  induction frames with
  | nil => intro fs; exact ⟨0, rfl⟩
  | cons f rest ih =>
    intro fs
    cases hsend : (sendFrame fs now f).2.isEmpty with
    | true =>
      refine ⟨0, ?_⟩
      rw [runFlow, if_pos hsend]
      rfl
    | false =>
      have hfull : (sendFrame fs now f).2 = frameBytes f := by
        rcases sendFrame_all_or_nothing fs now f with h | h
        · exact h
        · rw [h] at hsend
          simp at hsend
      obtain ⟨k, hk⟩ := ih (sendFrame fs now f).1
      refine ⟨k + 1, ?_⟩
      rw [runFlow, if_neg (by rw [hsend]; exact Bool.false_ne_true), hfull, hk]
      simp [List.take_succ_cons]

/-- C2: a frame whose payload exceeds `XPLMAX_PACKETSIZE_RECEIVE` is never
emitted to dispatch — feeding the whole byte sequence holding the oversized
frame followed by a well-formed frame produces exactly the well-formed
frame's payload: the oversized one is discarded without partial processing
and the parser recovers. -/
theorem oversizeFrame_dropped_then_recover (t : Nat) (p q : List Nat)
    (hp : ∀ b ∈ p, b ≠ XPL_PACKETHEADER ∧ b ≠ XPL_PACKETTRAILER)
    (hq : ∀ b ∈ q, b ≠ XPL_PACKETHEADER ∧ b ≠ XPL_PACKETTRAILER)
    (hplen : XPLMAX_PACKETSIZE_RECEIVE < p.length)
    (hqlen : q.length ≤ XPLMAX_PACKETSIZE_RECEIVE) :
    (feedAll .rxIdle t ([XPL_PACKETHEADER] ++ p ++ [XPL_PACKETTRAILER] ++
      [XPL_PACKETHEADER] ++ q ++ [XPL_PACKETTRAILER])).2 = [q] := by
  have h1 : feedAll .rxIdle t [XPL_PACKETHEADER] = (.rxOpen [] t, []) := by
    rw [feedAll, feed_idle_header]
    rfl
  have h2 : feedAll (.rxOpen ([] : List Nat) t) t p = (.rxIdle, []) :=
    feedAll_open_overflow t p [] hp (by simp) (by simpa using hplen)
  have h3 : feedAll .rxIdle t [XPL_PACKETTRAILER] = (.rxIdle, []) := by
    rw [feedAll, feed_idle_other t XPL_PACKETTRAILER (by decide)]
    rfl
  have h4 : feedAll (.rxOpen ([] : List Nat) t) t q = (.rxOpen q t, []) := by
    have := feedAll_open_fill t q []
      (fun b hb => (hq b hb).2) (by simpa using hqlen)
    simpa using this
  have h5 : feedAll (.rxOpen q t) t [XPL_PACKETTRAILER] = (.rxIdle, [q]) := by
    rw [feedAll, feed_open_trailer]
    rfl
  have hA : feedAll .rxIdle t ([XPL_PACKETHEADER] ++ p) = (.rxIdle, []) := by
    rw [feedAll_append, h1]
    simp [h2]
  have hB : feedAll .rxIdle t ([XPL_PACKETHEADER] ++ p ++ [XPL_PACKETTRAILER]) =
      (.rxIdle, []) := by
    rw [feedAll_append, hA]
    simp [h3]
  have hC : feedAll .rxIdle t ([XPL_PACKETHEADER] ++ p ++ [XPL_PACKETTRAILER] ++
      [XPL_PACKETHEADER]) = (.rxOpen [] t, []) := by
    rw [feedAll_append, hB]
    simp [h1]
  have hD : feedAll .rxIdle t ([XPL_PACKETHEADER] ++ p ++ [XPL_PACKETTRAILER] ++
      [XPL_PACKETHEADER] ++ q) = (.rxOpen q t, []) := by
    rw [feedAll_append, hC]
    simp [h4]
  rw [feedAll_append, hD]
  simp [h5]

set_option maxRecDepth 4000 in
/-- C2 witness: the oversize-then-recover law applied to a concrete
201-byte frame followed by a concrete 3-byte frame. -/
theorem oversizeFrame_dropped_then_recover_apply :
    (feedAll .rxIdle 0 ([XPL_PACKETHEADER] ++ oversizedPayload ++
      [XPL_PACKETTRAILER] ++ [XPL_PACKETHEADER] ++ smallPayload ++
      [XPL_PACKETTRAILER])).2 = [smallPayload] :=
  oversizeFrame_dropped_then_recover 0 oversizedPayload smallPayload
    (by decide) (by decide) (by decide) (by decide)

/-- C5: if an open frame is older than `XPL_RX_TIMEOUT` when the next byte
arrives, the partial frame is discarded — no frame is emitted, and the
parser is back at the idle scan state (opening a fresh frame if the byte is
the start delimiter). -/
theorem rxTimeout_discards_partial (buf : List Nat) (since now b : Nat)
    (h : XPL_RX_TIMEOUT < now - since) :
    (feed (.rxOpen buf since) now b).2 = none ∧
      (feed (.rxOpen buf since) now b).1 =
        (if b = XPL_PACKETHEADER then .rxOpen [] now else .rxIdle) := by
  rw [feed, feedTimeout, if_pos h]
  by_cases hb : b = XPL_PACKETHEADER
  · simp [feedByte, hb]
  · simp [feedByte, hb]

/-- C5 witness: a partial frame open since time 0 is dropped at time 501. -/
theorem rxTimeout_discards_partial_apply :
    (feed (.rxOpen [49, 50] 0) 501 65).2 = none ∧
      (feed (.rxOpen [49, 50] 0) 501 65).1 =
        (if (65 : Nat) = XPL_PACKETHEADER then .rxOpen [] 501 else .rxIdle) :=
  rxTimeout_discards_partial [49, 50] 0 501 65 (by decide)

/-- C10: the pending receive-byte count reported by `getBufferStatus` never
exceeds `XPLMAX_PACKETSIZE_RECEIVE` — it is 0 initially and stays within
the buffer bound after every deframer step, from any state. -/
theorem receiveBuffer_bounded (s : RxState) (now b : Nat) :
    getBufferStatus RxState.rxIdle = 0 ∧
      getBufferStatus (feed s now b).1 ≤ XPLMAX_PACKETSIZE_RECEIVE := by
  refine ⟨rfl, ?_⟩
  cases s with
  | rxIdle =>
    rw [feed, feedTimeout]
    by_cases hb : b = XPL_PACKETHEADER
    · simp [feedByte, hb, getBufferStatus, XPLMAX_PACKETSIZE_RECEIVE]
    · simp [feedByte, hb, getBufferStatus]
  | rxOpen buf since =>
    rw [feed, feedTimeout]
    by_cases ht : XPL_RX_TIMEOUT < now - since
    · rw [if_pos ht]
      by_cases hb : b = XPL_PACKETHEADER
      · simp [feedByte, hb, getBufferStatus, XPLMAX_PACKETSIZE_RECEIVE]
      · simp [feedByte, hb, getBufferStatus]
    · rw [if_neg ht]
      by_cases hb : b = XPL_PACKETTRAILER
      · simp [feedByte, hb, getBufferStatus]
      · by_cases hcap : XPLMAX_PACKETSIZE_RECEIVE ≤ buf.length
        · simp [feedByte, hb, hcap, getBufferStatus]
        · simp only [feedByte, if_neg hb, if_neg hcap, getBufferStatus,
            List.length_append, List.length_singleton]
          omega

/-- C3 counterexample: the engine does not track a per-handle held flag, so
the claimed rejections do not happen — a `commandStart` on a valid handle
returns 0 and sends a frame no matter how many unmatched starts preceded it
(the call is a pure function of the handle, so a second `commandStart 5`
after a successful first one behaves identically), and a `commandEnd 7`
with no prior unmatched start also returns 0 and sends a frame. -/
theorem commandBalance_not_enforced_cex :
    (commandStart 5).1 = 0 ∧ (commandStart 5).2.isSome = true ∧
      commandStart 5 = commandStart 5 ∧
      (commandEnd 7).1 = 0 ∧ (commandEnd 7).2.isSome = true := by
  decide

/-- C3 (amended): `commandStart` and `commandEnd` validate only the handle:
an invalid (negative, unregistered) handle is rejected with `-1` and no
frame is sent; a valid handle always returns 0 and sends the corresponding
frame, regardless of start/end balance, which is left to the application. -/
theorem commandStartEnd_validation (h : Int) :
    (h < 0 → commandStart h = (-1, none) ∧ commandEnd h = (-1, none)) ∧
      (0 ≤ h → (commandStart h).1 = 0 ∧
        (commandStart h).2 = some (cmdFrame XPLCMD_COMMANDSTART h) ∧
        (commandEnd h).1 = 0 ∧
        (commandEnd h).2 = some (cmdFrame XPLCMD_COMMANDEND h)) := by
  constructor
  · intro hneg
    simp [commandStart, commandEnd, hneg]
  · intro hpos
    simp [commandStart, commandEnd, not_lt.mpr hpos]

/-- C3 witness: the amended validation law applied at handles -3 and 5. -/
theorem commandStartEnd_validation_apply :
    commandStart (-3) = (-1, none) ∧ (commandStart 5).1 = 0 :=
  ⟨((commandStartEnd_validation (-3)).1 (by decide)).1,
    ((commandStartEnd_validation 5).2 (by decide)).1⟩

/-- C4: when a registration request has waited past `XPL_RESPONSE_TIMEOUT`,
the timeout check transitions the connection to `Disconnected` and fires
the stop (disconnect) callback exactly once for that failure: the counter
rises by one and re-running the check from the resulting state changes
nothing further. -/
theorem registrationTimeout_disconnects_once (e : Engine) (t now now2 : Nat)
    (hp : e.pendingSince = some t) (h : XPL_RESPONSE_TIMEOUT < now - t) :
    (checkResponseTimeout e now).conn = .csDisconnected ∧
      (checkResponseTimeout e now).stopCalls = e.stopCalls + 1 ∧
      checkResponseTimeout (checkResponseTimeout e now) now2 =
        checkResponseTimeout e now := by
  have hstep : checkResponseTimeout e now =
      { e with conn := .csDisconnected, pendingSince := none, handles := [], stopCalls := e.stopCalls + 1 } := by
    rw [checkResponseTimeout, hp]
    simp [h]
  rw [hstep]
  exact ⟨rfl, rfl, rfl⟩

/-- C4 witness: the timeout law on a concrete engine pending since time 0,
checked at time 90001 and re-checked at time 500000. -/
theorem registrationTimeout_disconnects_once_apply :
    (checkResponseTimeout pendingEngine 90001).conn = .csDisconnected ∧
      (checkResponseTimeout pendingEngine 90001).stopCalls =
        pendingEngine.stopCalls + 1 ∧
      checkResponseTimeout (checkResponseTimeout pendingEngine 90001) 500000 =
        checkResponseTimeout pendingEngine 90001 :=
  registrationTimeout_disconnects_once pendingEngine 0 90001 500000 rfl (by decide)

/-- C6: a "not found" registration response (negative handle value) makes
the registering call return the sentinel `XPL_HANDLE_INVALID = -1`, and the
outcome is non-fatal: the connection state, the existing handle bindings
and the stop-callback count are all unchanged. -/
theorem notFound_returns_invalid_handle (e : Engine) (name : List Nat)
    (resp : Int) (h : resp < 0) :
    (processRegResponse e name resp).2 = XPL_HANDLE_INVALID ∧
      XPL_HANDLE_INVALID = -1 ∧
      (processRegResponse e name resp).1.conn = e.conn ∧
      (processRegResponse e name resp).1.handles = e.handles ∧
      (processRegResponse e name resp).1.stopCalls = e.stopCalls := by
  rw [processRegResponse]
  simp [h, XPL_HANDLE_INVALID]

/-- C6 witness: the not-found law at a concrete engine and response. -/
theorem notFound_returns_invalid_handle_apply :
    (processRegResponse sampleEngine [98, 111] (-1)).2 = XPL_HANDLE_INVALID ∧
      XPL_HANDLE_INVALID = -1 ∧
      (processRegResponse sampleEngine [98, 111] (-1)).1.conn =
        sampleEngine.conn ∧
      (processRegResponse sampleEngine [98, 111] (-1)).1.handles =
        sampleEngine.handles ∧
      (processRegResponse sampleEngine [98, 111] (-1)).1.stopCalls =
        sampleEngine.stopCalls :=
  notFound_returns_invalid_handle sampleEngine [98, 111] (-1) (by decide)

/-- C7: outbound frames are all-or-nothing under pause and throttling: a
single transmit attempt writes either the whole serialized frame or
nothing; while paused nothing is written; and any run of queued frames puts
on the transport exactly the concatenation of some prefix of whole frames —
a token deficit only delays the next frame, never splits the current one. -/
theorem flow_frames_atomic (fs : FlowState) (now : Nat) (f : List Nat)
    (frames : List (List Nat)) :
    ((sendFrame fs now f).2 = frameBytes f ∨ (sendFrame fs now f).2 = []) ∧
      (fs.paused = true → (sendFrame fs now f).2 = []) ∧
      ∃ k, runFlow fs now frames = ((frames.take k).map frameBytes).flatten := by
  refine ⟨sendFrame_all_or_nothing fs now f, ?_, runFlow_whole_frames now frames fs⟩
  intro hpause
  rw [sendFrame, if_neg]
  simp [canSendNow, refillFlow_paused, hpause]

/-- C7 witness: the atomicity law applied to a paused flow state. -/
theorem flow_frames_atomic_apply :
    (sendFrame pausedFlow 5 [49, 50]).2 = [] :=
  (flow_frames_atomic pausedFlow 5 [49, 50] []).2.1 rfl

/-- C8: a well-framed packet whose command code is not in the dispatch
table is a silent no-op: the engine state (connection state, pending
request, handle bindings, flow state, stop counter) is returned unchanged
and no application callback event is produced. -/
theorem unknownCode_noop (e : Engine) (c : Nat) (rest : List Nat)
    (h : c ∉ knownCmdCodes) : processPacket e (c :: rest) = (e, []) := by
  simp only [knownCmdCodes, List.mem_cons, List.not_mem_nil, or_false,
    not_or] at h
  obtain ⟨h1, h2, h3, h4, h5, h6, h7, h8, h9, h10, h11, h12, h13⟩ := h
  simp [processPacket, updType, h1, h2, h3, h4, h5, h6, h7, h8, h9, h10,
    h11, h12, h13]

/-- C8 witness: the unknown code 63 dispatched against a concrete engine. -/
theorem unknownCode_noop_apply :
    processPacket sampleEngine (63 :: [49, 50]) = (sampleEngine, []) :=
  unknownCode_noop sampleEngine 63 [49, 50] (by decide)

/-- C9: the one-argument `commandTrigger` is exactly the two-argument
`commandTrigger` with a trigger count of one — same return value and same
transmitted frame — as its inline body in the header prescribes. -/
theorem commandTrigger_default (h : Int) :
    (commandTrigger1 h).1 = (commandTrigger2 h 1).1 ∧
      (commandTrigger1 h).2 = (commandTrigger2 h 1).2 :=
  ⟨rfl, rfl⟩
